import Mathlib

/-!
Shallow embedding of `src/Lequel.cpp` (Lequel: trigram-based language
identification), together with theorems settling the specification's claims.

Modelling conventions:
* A Unicode code point is a `Nat`; a decoded line is a `List Nat`.
* `TrigramProfile` (`std::unordered_map<std::string, float>` in the source)
  is an association list with unique keys; `float` values are modelled by
  exact rationals (`ℚ`), and by reals (`ℝ`) where the source takes a square
  root.  `std::unordered_map` iteration order is unspecified in C++; the
  list order stands in for it, and no theorem below depends on a particular
  order beyond what the source guarantees.
* In-place mutation (`normalizeTrigramProfile`) is modelled by returning the
  updated profile.
-/

namespace Lequel

/-- A trigram key.  The source stores `converter.to_bytes(wtrigram)`, a UTF-8
string; identity is by code-point content, so we keep the code points. -/
abbrev Trigram := List Nat

/-- Modelled from the header the source includes: `TrigramProfile` is a map
from trigram to `float`.  Embedded as an association list with unique keys. -/
abbrev TrigramProfile := List (Trigram × ℚ)

/-- The test `profile.find(k) != profile.end()` of the source. -/
def containsKey (p : TrigramProfile) (k : Trigram) : Bool :=
  p.any (fun e => e.1 == k)

/-- The read `profile[k]`, defaulting to `0` when the key is absent (the
source only reads `profile[k]` after checking that the key is present). -/
def lookupD (p : TrigramProfile) (k : Trigram) : ℚ :=
  ((p.find? (fun e => e.1 == k)).map (fun e => e.2)).getD 0

/-- The body of the trigram loop of `buildTrigramProfile`: if `trigram` is
already a key, `it->second++`; otherwise `profile.insert({trigram, 1})`. -/
def incKey (p : TrigramProfile) (k : Trigram) : TrigramProfile :=
  if containsKey p k then
    p.map (fun e => if e.1 == k then (e.1, e.2 + 1) else e)
  else
    p ++ [(k, 1)]

/-- The windows `unicodeString.substr(i, 3)` taken by the source for every
index `i` from `0` to `length - 1`: length-3 windows clamped at the line end
(the last two windows have 2 and 1 code points). -/
def windows (l : List Nat) : List Trigram :=
  (List.range l.length).map (fun i => (l.drop i).take 3)

/-- Processing of one decoded line by `buildTrigramProfile`: lines of fewer
than 3 code points are skipped (`continue`); otherwise every window is
counted into the profile. -/
def addLine (p : TrigramProfile) (l : List Nat) : TrigramProfile :=
  if l.length < 3 then p else (windows l).foldl incKey p

/-- The carriage-return strip of the source: drop one trailing `'\r'`
(code point 13) if present. -/
def stripCR (l : List Nat) : List Nat :=
  if l.getLast? = some 13 then l.dropLast else l

/-- A text: an ordered sequence of decoded lines.  (Byte-level decoding is
modelled separately; see `buildTrigramProfileBytes`.) -/
abbrev Text := List (List Nat)

/-- `buildTrigramProfile` of the source on already-decoded lines: strip one
trailing CR, skip lines shorter than 3 code points, and count every window
of every remaining line into one accumulated profile. -/
def buildTrigramProfile (text : Text) : TrigramProfile :=
  text.foldl (fun p line => addLine p (stripCR line)) []

/-- `getCosineSimilarity` of the source: iterate the first profile and, for
every key also present in the second, add the product of the two values. -/
def getCosineSimilarity (textProfile languageProfile : TrigramProfile) : ℚ :=
  textProfile.foldl
    (fun simCos p1 =>
      if containsKey languageProfile p1.1 then
        simCos + p1.2 * lookupD languageProfile p1.1
      else simCos)
    0

/-- Modelled from the header the source includes: a language is a language
code paired with its trigram profile. -/
structure LanguageProfile where
  languageCode : String
  trigramProfile : TrigramProfile
deriving DecidableEq

/-- An ordered collection of language profiles. -/
abbrev LanguageProfiles := List LanguageProfile

/-- The message `identifyLanguage` returns when no language scores above 0. -/
def noMatchMessage : String := "No se encontró lenguaje similar"

/-- One iteration of the language loop of `identifyLanguage`: compute
`actSim` and replace the running `(maxSim, langCode)` only when
`actSim > maxSim`. -/
def bestStep (tp : TrigramProfile) (acc : ℚ × String) (language : LanguageProfile) :
    ℚ × String :=
  let actSim := getCosineSimilarity tp language.trigramProfile
  if acc.1 < actSim then (actSim, language.languageCode) else acc

/-- `identifyLanguage` of the source: build the text profile, scan the
languages keeping the strictly best score (initial state `0`, `"Err"`); if
the code is still `"Err"` at the end, return the no-match message. -/
def identifyLanguage (text : Text) (languages : LanguageProfiles) : String :=
  let textProfile := buildTrigramProfile text
  let best := languages.foldl (bestStep textProfile) (0, "Err")
  if best.2 = "Err" then noMatchMessage else best.2

/-- The `tot` accumulated by `normalizeTrigramProfile` before the square
root: the sum of all values of the profile. -/
def profileTotal (p : TrigramProfile) : ℚ :=
  (p.map (fun e => e.2)).sum

/-- `normalizeTrigramProfile` of the source: sum all values, take the square
root of the sum, divide every value by it.  The in-place float division is
modelled by returning a real-valued profile. -/
noncomputable def normalizeTrigramProfile (p : TrigramProfile) :
    List (Trigram × ℝ) :=
  let tot : ℝ := Real.sqrt ((profileTotal p : ℚ) : ℝ)
  p.map (fun e => (e.1, ((e.2 : ℚ) : ℝ) / tot))

/-- The error taxonomy of the specification for the normalizer. -/
inductive NormalizeError where
  | emptyProfileError
deriving DecidableEq

/-- The observable outcome of the source's `normalizeTrigramProfile` as seen
by a caller expecting the specification's error taxonomy: the C++ function
returns `void` and throws nothing, so it has no error channel at all and
every call completes normally with the updated profile. -/
noncomputable def normalizeTrigramProfileE (p : TrigramProfile) :
    Except NormalizeError (List (Trigram × ℝ)) :=
  Except.ok (normalizeTrigramProfile p)

/-- Modelled from the spec: the normalizer contract of §4.2 and §7 — an
empty profile (zero total) is detected and reported as `EmptyProfileError`;
otherwise every value is divided by the square root of the value sum. -/
noncomputable def normalizeTrigramProfileSpec (p : TrigramProfile) :
    Except NormalizeError (List (Trigram × ℝ)) :=
  if p = [] then Except.error NormalizeError.emptyProfileError
  else Except.ok (normalizeTrigramProfile p)

/-- A UTF-8 continuation byte, `10xxxxxx`. -/
def utf8Cont (b : Nat) : Bool := 0x80 ≤ b && b < 0xC0

/-- The list of keys of a profile, in iteration order. -/
def keysOf (p : TrigramProfile) : List Trigram :=
  p.map (fun e => e.1)

/-- Modelled from the spec: one-byte-at-a-time UTF-8 decoding loop.  The
second argument is the number of continuation bytes still expected, the
third the partial code point accumulated so far. -/
def utf8DecodeLoop : List Nat → Nat → Nat → Option (List Nat)
  | [], 0, _ => some []
  | [], _ + 1, _ => none
  | b :: rest, 0, _ =>
    if b < 0x80 then (utf8DecodeLoop rest 0 0).map (fun cs => b :: cs)
    else if b < 0xC2 then none
    else if b < 0xE0 then utf8DecodeLoop rest 1 (b - 0xC0)
    else if b < 0xF0 then utf8DecodeLoop rest 2 (b - 0xE0)
    else if b < 0xF5 then utf8DecodeLoop rest 3 (b - 0xF0)
    else none
  | b :: rest, 1, cur =>
    if utf8Cont b then
      (utf8DecodeLoop rest 0 0).map (fun cs => (cur * 0x40 + (b - 0x80)) :: cs)
    else none
  | b :: rest, n + 2, cur =>
    if utf8Cont b then utf8DecodeLoop rest (n + 1) (cur * 0x40 + (b - 0x80))
    else none

/-- Modelled from the spec: the decoding collaborator
(`wstring_convert::from_bytes` in the source).  Returns `none` on byte
sequences that cannot be decoded — in the source this is a thrown
`std::range_error`, which `buildTrigramProfile` does not catch. -/
def utf8Decode (l : List Nat) : Option (List Nat) :=
  utf8DecodeLoop l 0 0

/-- `buildTrigramProfile` on raw byte lines: strip one trailing CR byte,
decode, and process the decoded line.  A `none` result models the source's
uncaught decoding exception: no profile (and no error value) is ever
returned to the caller — the process aborts. -/
def buildTrigramProfileBytes (text : List (List Nat)) : Option TrigramProfile :=
  text.foldl
    (fun acc line =>
      match acc with
      | none => none
      | some p =>
        match utf8Decode (stripCR line) with
        | none => none
        | some cps => some (addLine p cps))
    (some [])

/-! ### Basic lemmas about profiles -/

theorem lookupD_nil (k : Trigram) : lookupD [] k = 0 := rfl

theorem lookupD_cons (o : Trigram × ℚ) (p : TrigramProfile) (k : Trigram) :
    lookupD (o :: p) k = if k = o.1 then o.2 else lookupD p k := by
  by_cases h : k = o.1
  · simp [lookupD, List.find?_cons, h]
  · have hb : (o.1 == k) = false := by
      simpa using fun hc => h hc.symm
    simp [lookupD, List.find?_cons, hb, h]

theorem lookupD_eq_zero_of_containsKey_eq_false (p : TrigramProfile) (k : Trigram)
    (h : containsKey p k = false) : lookupD p k = 0 := by
  have hnone : p.find? (fun e => e.1 == k) = none :=
    List.find?_eq_none.2 (by simpa [containsKey, List.any_eq_false] using h)
  simp [lookupD, hnone]

theorem stripCR_length_le (l : List Nat) : (stripCR l).length ≤ l.length := by
  unfold stripCR
  split
  · simp
  · exact le_rfl

/-! ### Lemmas about the language-scanning loop of `identifyLanguage` -/

theorem foldl_bestStep_no_update (tp : TrigramProfile) :
    ∀ (l : LanguageProfiles) (acc : ℚ × String),
      (∀ g ∈ l, getCosineSimilarity tp g.trigramProfile ≤ acc.1) →
      l.foldl (bestStep tp) acc = acc
  | [], _, _ => rfl
  | g :: l, acc, h => by
    have hg : getCosineSimilarity tp g.trigramProfile ≤ acc.1 :=
      h g (List.mem_cons_self g l)
    have hstep : bestStep tp acc g = acc := by
      simp [bestStep, not_lt.2 hg]
    rw [List.foldl_cons, hstep]
    exact foldl_bestStep_no_update tp l acc
      (fun g2 hg2 => h g2 (List.mem_cons_of_mem g hg2))

theorem foldl_bestStep_lt (tp : TrigramProfile) (s : ℚ) :
    ∀ (l : LanguageProfiles) (acc : ℚ × String), acc.1 < s →
      (∀ g ∈ l, getCosineSimilarity tp g.trigramProfile < s) →
      (l.foldl (bestStep tp) acc).1 < s
  | [], _, hacc, _ => hacc
  | g :: l, acc, hacc, h => by
    rw [List.foldl_cons]
    refine foldl_bestStep_lt tp s l (bestStep tp acc g) ?_
      (fun g2 hg2 => h g2 (List.mem_cons_of_mem g hg2))
    by_cases hc : acc.1 < getCosineSimilarity tp g.trigramProfile
    · simpa [bestStep, hc] using h g (List.mem_cons_self g l)
    · simpa [bestStep, hc] using hacc

/-- The language loop selects the first language that attains the maximum
score, provided that maximum is strictly positive: languages before index
`j` score strictly less, languages after it score no more, and the final
state is exactly the score and code of language `j`. -/
theorem foldl_bestStep_first_max (tp : TrigramProfile)
    (languages : LanguageProfiles) (j : ℕ) (hj : j < languages.length)
    (hpos : 0 < getCosineSimilarity tp languages[j].trigramProfile)
    (hearlier : ∀ g ∈ languages.take j,
      getCosineSimilarity tp g.trigramProfile
        < getCosineSimilarity tp languages[j].trigramProfile)
    (hlater : ∀ g ∈ languages.drop (j + 1),
      getCosineSimilarity tp g.trigramProfile
        ≤ getCosineSimilarity tp languages[j].trigramProfile) :
    languages.foldl (bestStep tp) (0, "Err")
      = (getCosineSimilarity tp languages[j].trigramProfile,
          languages[j].languageCode) := by
  have hsplit :
      languages = languages.take j ++ languages[j] :: languages.drop (j + 1) := by
    conv_lhs => rw [← List.take_append_drop j languages]
    rw [List.drop_eq_getElem_cons hj]
  conv_lhs => rw [hsplit]
  rw [List.foldl_append, List.foldl_cons]
  have haccs : ((languages.take j).foldl (bestStep tp) (0, "Err")).1
      < getCosineSimilarity tp languages[j].trigramProfile :=
    foldl_bestStep_lt tp _ _ _ hpos hearlier
  have hstep : bestStep tp ((languages.take j).foldl (bestStep tp) (0, "Err"))
      languages[j]
      = (getCosineSimilarity tp languages[j].trigramProfile,
          languages[j].languageCode) := by
    simp [bestStep, haccs]
  rw [hstep]
  exact foldl_bestStep_no_update tp _ _ hlater

/-! ### Claim theorems -/

/-- Claim C1, counterexample.  The claim states that `normalizeTrigramProfile`
on the empty profile detects the zero-total case and reports an
`EmptyProfileError`.  The source function returns `void` and throws nothing,
so it has no error channel at all: on the empty profile it completes
normally, returning the (unchanged, empty) profile, while the contract
modelled from the spec demands `Except.error emptyProfileError`. -/
theorem normalizeTrigramProfile_empty_no_error_report :
    normalizeTrigramProfileE ([] : TrigramProfile) = Except.ok []
      ∧ normalizeTrigramProfileE ([] : TrigramProfile)
          ≠ Except.error NormalizeError.emptyProfileError
      ∧ normalizeTrigramProfileSpec ([] : TrigramProfile)
          = Except.error NormalizeError.emptyProfileError := by
  refine ⟨?_, ?_, ?_⟩
  · simp [normalizeTrigramProfileE, normalizeTrigramProfile]
  · simp [normalizeTrigramProfileE, normalizeTrigramProfile]
  · simp [normalizeTrigramProfileSpec]

/-- Claim C1, amended.  On the empty profile `normalizeTrigramProfile` never
performs the division (both of its loops run zero times), leaves no NaN or
other value in the profile — the result is the unchanged empty profile —
and reports nothing: no `EmptyProfileError` exists in the code, the call
completes normally. -/
theorem normalizeTrigramProfile_empty_noop :
    normalizeTrigramProfile ([] : TrigramProfile) = []
      ∧ normalizeTrigramProfileE ([] : TrigramProfile) = Except.ok [] := by
  constructor
  · simp [normalizeTrigramProfile]
  · simp [normalizeTrigramProfileE, normalizeTrigramProfile]

/-- Claim C2.  Whenever no language in the collection scores strictly above
0 against the text profile (in particular for the empty collection), the
language loop never replaces the initial state, the `"Err"` sentinel
survives, and `identifyLanguage` returns the fixed no-match message — the
`NoMatch` outcome — rather than any language code from the collection. -/
theorem identifyLanguage_no_positive_score_noMatch (text : Text)
    (languages : LanguageProfiles)
    (h : ∀ g ∈ languages,
      getCosineSimilarity (buildTrigramProfile text) g.trigramProfile ≤ 0) :
    identifyLanguage text languages = noMatchMessage := by
  have hfold : languages.foldl (bestStep (buildTrigramProfile text)) (0, "Err")
      = (0, "Err") :=
    foldl_bestStep_no_update (buildTrigramProfile text) languages (0, "Err") h
  simp [identifyLanguage, hfold]

/-- Claim C2, witness: the empty collection yields the no-match outcome. -/
theorem identifyLanguage_no_positive_score_noMatch_witness :
    identifyLanguage [] [] = noMatchMessage :=
  identifyLanguage_no_positive_score_noMatch [] [] (by simp)

/-- Claim C7.  Evaluation of the byte-level model at an undecodable input:
one line consisting of the single byte `0xFF`, which no UTF-8 decoder
accepts.  The result is `none` — the model of the uncaught
`std::range_error` thrown by `wstring_convert::from_bytes`: the source's
`buildTrigramProfile` catches nothing and has no `DecodeError` result, so
no error value ever reaches the caller and the process aborts. -/
theorem buildTrigramProfileBytes_invalid_input :
    buildTrigramProfileBytes [[0xFF]] = none ∧ utf8Decode [0xFF] = none :=
  ⟨rfl, rfl⟩

/-- Claim C8.  If every line of the text decodes to fewer than 3 code
points, every line is skipped by the length guard (stripping a trailing CR
only shortens a line) and `buildTrigramProfile` returns the empty mapping. -/
theorem buildTrigramProfile_short_lines_empty (text : Text)
    (h : ∀ l ∈ text, l.length < 3) :
    buildTrigramProfile text = [] := by
  unfold buildTrigramProfile
  have key : ∀ (lines : Text) (p : TrigramProfile),
      (∀ l ∈ lines, l.length < 3) →
      lines.foldl (fun p line => addLine p (stripCR line)) p = p := by
    intro lines
    induction lines with
    | nil => intro p _; rfl
    | cons l lines ih =>
      intro p hl
      have hshort : (stripCR l).length < 3 :=
        lt_of_le_of_lt (stripCR_length_le l) (hl l (List.mem_cons_self l lines))
      rw [List.foldl_cons]
      have : addLine p (stripCR l) = p := by
        simp [addLine, hshort]
      rw [this]
      exact ih p (fun l2 hl2 => hl l2 (List.mem_cons_of_mem l hl2))
  exact key text [] h

/-- Claim C8, witness: a text of a one-code-point line and a two-code-point
line produces the empty profile. -/
theorem buildTrigramProfile_short_lines_empty_witness :
    buildTrigramProfile [[97], [98, 99]] = [] :=
  buildTrigramProfile_short_lines_empty [[97], [98, 99]] (by decide)

/-- Claim C3, counterexample.  The claim asserts that among equal top scores
the language appearing earliest in the collection is *returned*.  Two
refutations at concrete inputs: (1) two languages tied at the top score `1`
where the earliest is coded `"Err"` — the internal sentinel — so the
no-match message is returned instead of the earliest language's code;
(2) two languages tied at the top score `0` — the strict `>` test never
fires, so the no-match message is returned instead of the earliest
language's code `"en"`. -/
theorem identifyLanguage_tie_counterexample :
    identifyLanguage [[97, 98, 99]]
        [⟨"Err", [([97, 98, 99], 1)]⟩, ⟨"fr", [([97, 98, 99], 1)]⟩]
      = noMatchMessage
    ∧ noMatchMessage ≠ "Err"
    ∧ identifyLanguage [] [⟨"en", []⟩, ⟨"fr", []⟩] = noMatchMessage
    ∧ noMatchMessage ≠ "en" := by
  refine ⟨?_, by decide, ?_, by decide⟩ <;>
    norm_num [identifyLanguage, bestStep, getCosineSimilarity, buildTrigramProfile,
      addLine, stripCR, windows, incKey, containsKey, lookupD, List.range_succ]

/-- Claim C3, amended.  `identifyLanguage` tracks a best score initialized
to 0 and replaces the best candidate only on a strictly greater score, so
among equal top scores the first language in iteration order is selected;
its code is returned provided the top score is strictly positive and that
code is not the internal sentinel `"Err"` (otherwise the no-match message
is returned instead).  Index `j` is the first language attaining the
maximum: all earlier languages score strictly less, no language scores
more. -/
theorem identifyLanguage_first_max_selected (text : Text)
    (languages : LanguageProfiles) (j : ℕ) (hj : j < languages.length)
    (hpos : 0 < getCosineSimilarity (buildTrigramProfile text)
        languages[j].trigramProfile)
    (hearlier : ∀ g ∈ languages.take j,
      getCosineSimilarity (buildTrigramProfile text) g.trigramProfile
        < getCosineSimilarity (buildTrigramProfile text)
            languages[j].trigramProfile)
    (hlater : ∀ g ∈ languages.drop (j + 1),
      getCosineSimilarity (buildTrigramProfile text) g.trigramProfile
        ≤ getCosineSimilarity (buildTrigramProfile text)
            languages[j].trigramProfile)
    (hcode : languages[j].languageCode ≠ "Err") :
    identifyLanguage text languages = languages[j].languageCode := by
  have hfold := foldl_bestStep_first_max (buildTrigramProfile text)
    languages j hj hpos hearlier hlater
  simp [identifyLanguage, hfold, hcode]

/-- Claim C3, witness: two languages tied at top score `1`; the earlier one
(`"en"`, at index 0) is returned. -/
theorem identifyLanguage_first_max_selected_witness :
    identifyLanguage [[97, 98, 99]]
        [⟨"en", [([97, 98, 99], 1)]⟩, ⟨"fr", [([97, 98, 99], 1)]⟩]
      = "en" :=
  identifyLanguage_first_max_selected [[97, 98, 99]]
    [⟨"en", [([97, 98, 99], 1)]⟩, ⟨"fr", [([97, 98, 99], 1)]⟩]
    0 (by decide)
    (by norm_num [getCosineSimilarity, buildTrigramProfile, addLine, stripCR,
      windows, incKey, containsKey, lookupD, List.range_succ])
    (by simp)
    (by norm_num [getCosineSimilarity, buildTrigramProfile, addLine, stripCR,
      windows, incKey, containsKey, lookupD, List.range_succ])
    (by decide)

/-- Claim C10.  If the language whose code is exactly `"Err"` is the one the
loop selects — it attains a strictly positive score, strictly above every
earlier language and no lower than any later one — the final
`langCode == "Err"` test misreads the selection as "no language updated the
initial state" and `identifyLanguage` returns the no-match sentinel message
instead of the language's code: the internal sentinel collides with a
legitimate language code. -/
theorem identifyLanguage_err_code_collision (text : Text)
    (languages : LanguageProfiles) (j : ℕ) (hj : j < languages.length)
    (hcode : languages[j].languageCode = "Err")
    (hpos : 0 < getCosineSimilarity (buildTrigramProfile text)
        languages[j].trigramProfile)
    (hearlier : ∀ g ∈ languages.take j,
      getCosineSimilarity (buildTrigramProfile text) g.trigramProfile
        < getCosineSimilarity (buildTrigramProfile text)
            languages[j].trigramProfile)
    (hlater : ∀ g ∈ languages.drop (j + 1),
      getCosineSimilarity (buildTrigramProfile text) g.trigramProfile
        ≤ getCosineSimilarity (buildTrigramProfile text)
            languages[j].trigramProfile) :
    identifyLanguage text languages = noMatchMessage
      ∧ identifyLanguage text languages ≠ languages[j].languageCode := by
  have hfold := foldl_bestStep_first_max (buildTrigramProfile text)
    languages j hj hpos hearlier hlater
  constructor
  · simp [identifyLanguage, hfold, hcode]
  · simp only [identifyLanguage, hfold, hcode]
    simp [noMatchMessage]

/-- Claim C10, witness: a single language coded `"Err"` scoring `1` against
the text; the no-match message is returned instead of `"Err"`. -/
theorem identifyLanguage_err_code_collision_witness :
    identifyLanguage [[97, 98, 99]] [⟨"Err", [([97, 98, 99], 1)]⟩]
        = noMatchMessage
      ∧ identifyLanguage [[97, 98, 99]] [⟨"Err", [([97, 98, 99], 1)]⟩]
          ≠ ([⟨"Err", [([97, 98, 99], 1)]⟩] : LanguageProfiles)[0].languageCode :=
  identifyLanguage_err_code_collision [[97, 98, 99]]
    [⟨"Err", [([97, 98, 99], 1)]⟩] 0 (by decide) (by decide)
    (by norm_num [getCosineSimilarity, buildTrigramProfile, addLine, stripCR,
      windows, incKey, containsKey, lookupD, List.range_succ])
    (by simp)
    (by simp)

/-! ### Counting lemmas for the profile builder -/

theorem lookupD_incKey (p : TrigramProfile) (k k2 : Trigram) :
    lookupD (incKey p k) k2 = lookupD p k2 + if k2 = k then 1 else 0 := by
  unfold incKey
  by_cases hc : containsKey p k
  · rw [if_pos hc]
    have hpre : ((fun (e : Trigram × ℚ) => e.1 == k2)
          ∘ (fun (e : Trigram × ℚ) => if e.1 == k then (e.1, e.2 + 1) else e))
        = fun (e : Trigram × ℚ) => e.1 == k2 := by
      funext e
      by_cases h : e.1 == k <;> simp [Function.comp, h]
    have hmap : (p.map (fun e => if e.1 == k then (e.1, e.2 + 1) else e)).find?
          (fun e => e.1 == k2)
        = (p.find? (fun e => e.1 == k2)).map
            (fun e => if e.1 == k then (e.1, e.2 + 1) else e) := by
      rw [List.find?_map, hpre]
    cases hfind : p.find? (fun e => e.1 == k2) with
    | none =>
      have hall := List.find?_eq_none.1 hfind
      have hkk : k2 ≠ k := by
        intro heq
        obtain ⟨e, he, hek⟩ := List.any_eq_true.1 hc
        exact hall e he (heq ▸ hek)
      unfold lookupD
      rw [hmap, hfind]
      simp [hkk]
    | some e =>
      have he1 : e.1 = k2 := by simpa using List.find?_some hfind
      unfold lookupD
      rw [hmap, hfind]
      by_cases hk : k2 = k
      · simp [he1, hk]
      · simp [he1, hk]
  · rw [if_neg hc]
    have hcf : containsKey p k = false := by simpa using hc
    by_cases hk : k2 = k
    · subst hk
      have hnone : p.find? (fun e => e.1 == k2) = none := by
        apply List.find?_eq_none.2
        intro e he
        have := (List.any_eq_false.1 hcf) e he
        simpa using this
      unfold lookupD
      rw [List.find?_append, hnone]
      simp
    · have hxs : List.find? (fun (e : Trigram × ℚ) => e.1 == k2) [(k, 1)] = none := by
        simp [Ne.symm hk]
      unfold lookupD
      rw [List.find?_append, hxs]
      simp [hk]

theorem lookupD_foldl_incKey (k : Trigram) :
    ∀ (ws : List Trigram) (p : TrigramProfile),
      lookupD (ws.foldl incKey p) k = lookupD p k + (ws.count k : ℚ)
  | [], p => by simp
  | w :: ws, p => by
    rw [List.foldl_cons, lookupD_foldl_incKey k ws (incKey p w), lookupD_incKey,
      List.count_cons]
    by_cases h : k = w
    · simp [h]
      ring
    · have hbf : (w == k) = false := by simp [Ne.symm h]
      simp [h, hbf]

theorem lookupD_addLine (p : TrigramProfile) (l : List Nat) (k : Trigram) :
    lookupD (addLine p l) k
      = lookupD p k
        + if l.length < 3 then 0 else ((windows l).count k : ℚ) := by
  by_cases h : l.length < 3
  · simp [addLine, h]
  · rw [if_neg h]
    simp only [addLine, if_neg h]
    rw [lookupD_foldl_incKey]

theorem lookupD_foldl_addLine (k : Trigram) :
    ∀ (lines : Text) (p : TrigramProfile),
      lookupD (lines.foldl (fun p line => addLine p (stripCR line)) p) k
        = lookupD p k
          + (lines.map (fun line =>
              if (stripCR line).length < 3 then 0
              else (((windows (stripCR line)).count k : ℕ) : ℚ))).sum
  | [], p => by simp
  | l :: lines, p => by
    rw [List.foldl_cons, lookupD_foldl_addLine k lines _, lookupD_addLine,
      List.map_cons, List.sum_cons]
    ring

theorem count_windows (l2 : List Nat) (k : Trigram) :
    (windows l2).count k
      = (List.range l2.length).countP (fun i => (l2.drop i).take 3 == k) := by
  rw [windows, List.count_eq_countP, List.countP_map]
  rfl

/-- Claim C5.  On a text whose (CR-stripped) lines all have at least 3 code
points, the value the built profile assigns to any key `k` is exactly the
number of indices `i` from `0` to the line length minus 1 whose clamped
window `(drop i).take 3` equals `k`, summed over all lines: every window is
counted once (a new key starts at 1), and counts accumulate across lines
into the one profile. -/
theorem buildTrigramProfile_window_counts (text : Text) (k : Trigram)
    (h : ∀ l ∈ text, 3 ≤ (stripCR l).length) :
    lookupD (buildTrigramProfile text) k
      = (text.map (fun l =>
          (((List.range (stripCR l).length).countP
              (fun i => ((stripCR l).drop i).take 3 == k) : ℕ) : ℚ))).sum := by
  unfold buildTrigramProfile
  rw [lookupD_foldl_addLine, lookupD_nil, zero_add]
  apply congrArg List.sum
  apply List.map_congr_left
  intro l hl
  rw [if_neg (not_lt.2 (h l hl))]
  rw [count_windows]

/-- Claim C5, witness: the 4-code-point line `"abcd"`; the key `"bcd"` gets
the count of its single window occurrence. -/
theorem buildTrigramProfile_window_counts_witness :
    lookupD (buildTrigramProfile [[97, 98, 99, 100]]) [98, 99, 100]
      = (([[97, 98, 99, 100]] : Text).map (fun l =>
          (((List.range (stripCR l).length).countP
              (fun i => ((stripCR l).drop i).take 3 == [98, 99, 100]) : ℕ) : ℚ))).sum :=
  buildTrigramProfile_window_counts [[97, 98, 99, 100]] [98, 99, 100] (by decide)

/-- Claim C4.  Every entry of the normalized profile is the corresponding
original entry with its value divided by the square root of the sum of all
original values (`profileTotal`) — the count sum, not the sum of squared
counts. -/
theorem normalizeTrigramProfile_values (p : TrigramProfile) (_hp : p ≠ [])
    (e : Trigram × ℝ) (he : e ∈ normalizeTrigramProfile p) :
    ∃ o ∈ p, e.1 = o.1
      ∧ e.2 = ((o.2 : ℚ) : ℝ) / Real.sqrt ((profileTotal p : ℚ) : ℝ) := by
  unfold normalizeTrigramProfile at he
  simp only [List.mem_map] at he
  obtain ⟨o, ho, hoe⟩ := he
  exact ⟨o, ho, by rw [← hoe], by rw [← hoe]⟩

/-- Claim C4, witness: the profile with single count 4 normalizes its value
to `4 / sqrt 4 = 2`. -/
theorem normalizeTrigramProfile_values_witness :
    ∃ o ∈ ([([97], 4)] : TrigramProfile),
      (([97], (2 : ℝ)) : Trigram × ℝ).1 = o.1
        ∧ (([97], (2 : ℝ)) : Trigram × ℝ).2
            = ((o.2 : ℚ) : ℝ) / Real.sqrt ((profileTotal [([97], 4)] : ℚ) : ℝ) :=
  normalizeTrigramProfile_values [([97], 4)] (by simp) ([97], (2 : ℝ))
    (by
      have h4 : ((profileTotal [([97], (4 : ℚ))] : ℚ) : ℝ) = 4 := by
        norm_num [profileTotal]
      have hs : Real.sqrt (4 : ℝ) = 2 := by
        rw [show (4 : ℝ) = 2 ^ 2 by norm_num, Real.sqrt_sq (by norm_num : (0:ℝ) ≤ 2)]
      simp [normalizeTrigramProfile, h4, hs]
      norm_num)

/-! ### Lemmas about the similarity sum -/

theorem foldl_sim_acc (b a : TrigramProfile) :
    ∀ (acc : ℚ),
      a.foldl (fun simCos p1 =>
        if containsKey b p1.1 then simCos + p1.2 * lookupD b p1.1 else simCos) acc
        = acc + a.foldl (fun simCos p1 =>
            if containsKey b p1.1 then simCos + p1.2 * lookupD b p1.1 else simCos) 0 := by
  induction a with
  | nil => intro acc; simp
  | cons e a ih =>
    intro acc
    rw [List.foldl_cons, ih]
    conv_rhs => rw [List.foldl_cons, ih]
    by_cases hc : containsKey b e.1
    · rw [if_pos hc, if_pos hc]
      ring
    · rw [if_neg hc, if_neg hc]
      ring

theorem getCosineSimilarity_cons (e : Trigram × ℚ) (a b : TrigramProfile) :
    getCosineSimilarity (e :: a) b
      = (if containsKey b e.1 then e.2 * lookupD b e.1 else 0)
        + getCosineSimilarity a b := by
  unfold getCosineSimilarity
  rw [List.foldl_cons, foldl_sim_acc]
  by_cases hc : containsKey b e.1
  · simp [hc]
  · simp [hc]

/-- Claim C6.  `getCosineSimilarity` is the sum, over the entries of the
first profile whose trigram also exists in the second profile, of the
product of the two values; entries whose trigram the second profile lacks
are filtered out and contribute zero. -/
theorem getCosineSimilarity_dot_product (a b : TrigramProfile) :
    getCosineSimilarity a b
      = ((a.filter (fun e => containsKey b e.1)).map
          (fun e => e.2 * lookupD b e.1)).sum := by
  induction a with
  | nil => rfl
  | cons e a ih =>
    rw [getCosineSimilarity_cons, ih, List.filter_cons]
    by_cases hc : containsKey b e.1 <;> simp [hc]

theorem getCosineSimilarity_eq_sum (a b : TrigramProfile) :
    getCosineSimilarity a b = (a.map (fun e => e.2 * lookupD b e.1)).sum := by
  induction a with
  | nil => rfl
  | cons e a ih =>
    rw [getCosineSimilarity_cons, ih, List.map_cons, List.sum_cons]
    by_cases hc : containsKey b e.1
    · rw [if_pos hc]
    · rw [if_neg hc,
        lookupD_eq_zero_of_containsKey_eq_false b e.1 (by simpa using hc)]
      ring

theorem lookupD_cons_pair (k : Trigram) (v : ℚ) (p : TrigramProfile) (k2 : Trigram) :
    lookupD ((k, v) :: p) k2 = if k2 = k then v else lookupD p k2 :=
  lookupD_cons (k, v) p k2

theorem lookupD_eq_zero_of_not_mem_keys (p : TrigramProfile) (k : Trigram)
    (h : k ∉ keysOf p) : lookupD p k = 0 := by
  apply lookupD_eq_zero_of_containsKey_eq_false
  rw [containsKey, List.any_eq_false]
  intro e he hek
  rw [beq_iff_eq] at hek
  have hmem : e.1 ∈ keysOf p := List.mem_map_of_mem (fun e2 => e2.1) he
  rw [hek] at hmem
  exact h hmem

theorem sum_lookupD_cons_right (k : Trigram) (v : ℚ) :
    ∀ (b a : TrigramProfile), (keysOf b).Nodup → k ∉ keysOf a →
      (b.map (fun e => e.2 * lookupD ((k, v) :: a) e.1)).sum
        = lookupD b k * v + (b.map (fun e => e.2 * lookupD a e.1)).sum
  | [], _, _, _ => by simp [lookupD_nil]
  | o :: b, a, hb, ha => by
    have h2 : (o.1 :: keysOf b).Nodup := by simpa [keysOf] using hb
    rw [List.map_cons, List.sum_cons, List.map_cons, List.sum_cons,
      sum_lookupD_cons_right k v b a (List.nodup_cons.1 h2).2 ha,
      lookupD_cons_pair k v a o.1, lookupD_cons o b k]
    by_cases hk : o.1 = k
    · rw [if_pos hk, if_pos hk.symm,
        lookupD_eq_zero_of_not_mem_keys b k (by
          rw [← hk]; exact (List.nodup_cons.1 h2).1),
        lookupD_eq_zero_of_not_mem_keys a o.1 (by rw [hk]; exact ha)]
      ring
    · rw [if_neg hk, if_neg (fun h => hk h.symm)]
      ring

theorem sum_lookupD_comm :
    ∀ (a b : TrigramProfile), (keysOf a).Nodup → (keysOf b).Nodup →
      (a.map (fun e => e.2 * lookupD b e.1)).sum
        = (b.map (fun e => e.2 * lookupD a e.1)).sum
  | [], b, _, _ => by
    rw [List.map_nil, List.sum_nil]
    symm
    apply List.sum_eq_zero
    intro x hx
    simp only [List.mem_map] at hx
    obtain ⟨e, _, rfl⟩ := hx
    rw [lookupD_nil, mul_zero]
  | (k, v) :: a, b, ha, hb => by
    have h2 : (k :: keysOf a).Nodup := by simpa [keysOf] using ha
    rw [List.map_cons, List.sum_cons,
      sum_lookupD_comm a b (List.nodup_cons.1 h2).2 hb,
      sum_lookupD_cons_right k v b a hb (List.nodup_cons.1 h2).1]
    dsimp only
    ring

/-- Claim C9.  With the unique-key invariant `std::unordered_map` maintains
for both profiles, `getCosineSimilarity` is commutative: both orders equal
the sum of products over the common keys. -/
theorem getCosineSimilarity_comm (a b : TrigramProfile)
    (ha : (keysOf a).Nodup) (hb : (keysOf b).Nodup) :
    getCosineSimilarity a b = getCosineSimilarity b a := by
  rw [getCosineSimilarity_eq_sum, getCosineSimilarity_eq_sum]
  exact sum_lookupD_comm a b ha hb

/-- Claim C9, witness: concrete profiles with overlapping key sets score
the same in both orders. -/
theorem getCosineSimilarity_comm_witness :
    getCosineSimilarity [([1], 2)] [([1], 3), ([2], 5)]
      = getCosineSimilarity [([1], 3), ([2], 5)] [([1], 2)] :=
  getCosineSimilarity_comm [([1], 2)] [([1], 3), ([2], 5)]
    (by decide) (by decide)

end Lequel
